import Mathlib

/-!
# Verification of the calendly-clone scheduling core

Shallow embedding of the backend scheduling logic:

* `GET /api/booking/slots/:eventSlug` (slot generation)  — `generateSlots`
* `POST /api/booking` (booking transaction)              — `createBooking`
* `POST /api/availability` (bulk availability replace)   — `saveAvailability`
* `PATCH /api/meetings/:id/cancel` (meeting cancel)      — `cancelMeeting`

Modelling conventions:

* Absolute UTC instants and civil datetimes are `Int` minutes; a civil day
  index `d : Int` denotes the civil date whose civil midnight is minute
  `d * 1440`, and day index `0` is a Sunday (so `moment.day()` is `d % 7`).
* An IANA timezone is modelled by its fixed UTC offset in minutes (east
  positive): `moment.tz(civil, zone).utc()` is `civil - offset`.  DST is out
  of scope (the spec calls DST disambiguation implementation-defined).
* Database tables are lists of rows; SQL `SELECT ... WHERE` is `List.filter`
  or `List.find?` with the query's predicate, and the driver's
  "first row of the result" destructuring is `List.find?`.
* `moment(..).endOf('day')` is `23:59:59.999`; at minute granularity the
  SQL filter `start_time >= startOfDay AND start_time < endOfDay` is
  `dayStart ≤ t ∧ t < dayStart + 1440`.
* JS string truthiness is `≠ ""`; a nullable column or absent JSON field is
  an `Option`.
-/

namespace Calendly

/-- `status` column of the `meetings` table. -/
inductive MeetingStatus
  | scheduled
  | cancelled
  | completed
deriving DecidableEq, Repr

/-- Row of `event_types`. -/
structure EventType where
  id : Nat
  name : String
  slug : String
  duration_minutes : Int
deriving DecidableEq, Repr

/-- Row of `availability` (a recurring weekly rule). `start_time`/`end_time`
are civil time-of-day in minutes after midnight; `timezone` is the rule's
stored zone as a fixed UTC offset in minutes. -/
structure AvailabilityRule where
  event_type_id : Nat
  day_of_week : Int
  start_time : Int
  end_time : Int
  timezone : Int
deriving DecidableEq, Repr

/-- Row of `availability_overrides`. `start_time`/`end_time` are nullable. -/
structure AvailabilityOverride where
  event_type_id : Nat
  override_date : Int
  is_available : Bool
  start_time : Option Int
  end_time : Option Int
deriving DecidableEq, Repr

/-- Row of `meetings`. `start_time`/`end_time` are UTC instants (minutes). -/
structure Meeting where
  id : Nat
  event_type_id : Nat
  invitee_name : String
  invitee_email : String
  start_time : Int
  end_time : Int
  timezone : Int
  status : MeetingStatus
deriving DecidableEq, Repr

/-- The database state. `nextMeetingId` models the `meetings` AUTO_INCREMENT
counter. -/
structure DB where
  event_types : List EventType
  availability : List AvailabilityRule
  overrides : List AvailabilityOverride
  meetings : List Meeting
  nextMeetingId : Nat
deriving DecidableEq, Repr

/-- `SELECT * FROM event_types WHERE slug = ?`, destructured to its first
row. -/
def findEventTypeBySlug (db : DB) (slug : String) : Option EventType :=
  db.event_types.find? (fun et => decide (et.slug = slug))

/-! ## Slot generation (`GET /api/booking/slots/:eventSlug`) -/

/-- An emitted slot. `start`/`stop` are the civil values produced by
`format('YYYY-MM-DDTHH:mm:ss')` (the JS field `end` is a Lean keyword, hence
`stop`); `timezone` is the `timezone` field of the JSON object. -/
structure Slot where
  start : Int
  stop : Int
  timezone : Int
deriving DecidableEq, Repr

/-- Result of the slots endpoint. -/
inductive SlotsResult
  | badRequest
  | notFound
  | ok (slots : List Slot)
deriving DecidableEq, Repr

/-- One entry of the `timeRanges` array: either a weekly rule or the
override range. -/
structure TimeRange where
  start_time : Int
  end_time : Int
  timezone : Int
deriving DecidableEq, Repr

/-- A weekly rule used as a time range. -/
def ruleRange (r : AvailabilityRule) : TimeRange :=
  ⟨r.start_time, r.end_time, r.timezone⟩

/--
`timeRanges = override && override.is_available && override.start_time &&
override.end_time ? [{..override, timezone}] : dayAvailability`.
-/
def effectiveTimeRanges (dayAvailability : List AvailabilityRule)
    (override : Option AvailabilityOverride) (viewerTz : Int) : List TimeRange :=
  match override with
  | some o =>
    if o.is_available && o.start_time.isSome && o.end_time.isSome then
      [⟨o.start_time.getD 0, o.end_time.getD 0, viewerTz⟩]
    else dayAvailability.map ruleRange
  | none => dayAvailability.map ruleRange

/--
The candidate civil start times produced by the generation loop
`while (currentSlot + duration <= endMoment) { ...; currentSlot += duration }`.
With fixed offsets the instant comparison `isSameOrBefore` is the civil
comparison `cur + dur ≤ endC`.  (The guard `0 < dur` reflects that the JS
loop terminates only for a positive duration.)
-/
def slotStarts (cur endC dur : Int) : List Int :=
  if _h : 0 < dur ∧ cur + dur ≤ endC then
    cur :: slotStarts (cur + dur) endC dur
  else []
termination_by (endC - cur).toNat
decreasing_by
  simp_wf
  omega

/-- UTC start of the civil day `date` in the viewer zone
(`startOf('day').utc()`). -/
def dayWindowStart (date viewerTz : Int) : Int := date * 1440 - viewerTz

/-- UTC end of the civil day `date` in the viewer zone (`endOf('day').utc()`,
modelled at minute granularity). -/
def dayWindowEnd (date viewerTz : Int) : Int := date * 1440 + 1440 - viewerTz

/--
`SELECT start_time, end_time FROM meetings WHERE event_type_id = ? AND
status = 'scheduled' AND start_time >= startOfDay AND start_time < endOfDay`.
-/
def loadedBookings (db : DB) (etId : Nat) (date viewerTz : Int) : List Meeting :=
  db.meetings.filter (fun m =>
    decide (m.event_type_id = etId ∧ m.status = MeetingStatus.scheduled ∧
      dayWindowStart date viewerTz ≤ m.start_time ∧
      m.start_time < dayWindowEnd date viewerTz))

/--
The body of the per-range generation loop: each candidate start `c` (a civil
value in the range's timezone) is converted to UTC (`c - r.timezone`),
checked against `existingBookings.some(..)` with the open-interval overlap
test and against the past filter, and, if kept, pushed as
`{start: format(slotStart), end: format(slotEnd), timezone: viewerTz}` —
the formatted values are the civil values in the range's own zone.
-/
def slotsForRange (date dur viewerTz now : Int) (bookings : List Meeting)
    (r : TimeRange) : List Slot :=
  (slotStarts (date * 1440 + r.start_time) (date * 1440 + r.end_time) dur).filterMap
    (fun c =>
      let slotStartUTC := c - r.timezone
      let slotEndUTC := c + dur - r.timezone
      let hasConflict := bookings.any (fun b =>
        decide (slotStartUTC < b.end_time ∧ b.start_time < slotEndUTC))
      let isPast := decide (slotStartUTC < now)
      if hasConflict || isPast then none
      else some ⟨c, c + dur, viewerTz⟩)

/-- Ordering used by `slots.sort((a, b) => moment(a.start).diff(moment(b.start)))`. -/
def slotLE (a b : Slot) : Prop := a.start ≤ b.start

instance : DecidableRel slotLE := fun a b => Int.decLe a.start b.start

instance : IsTotal Slot slotLE := ⟨fun a b => Int.le_total a.start b.start⟩

instance : IsTrans Slot slotLE := ⟨fun _ _ _ h h' => Int.le_trans h h'⟩

/-- The final ascending stable sort of the emitted slots. -/
def sortSlots (l : List Slot) : List Slot := l.insertionSort slotLE

/-- `SELECT * FROM availability WHERE event_type_id = ?`. -/
def availabilityFor (db : DB) (etId : Nat) : List AvailabilityRule :=
  db.availability.filter (fun a => decide (a.event_type_id = etId))

/-- `availability.filter(avail => avail.day_of_week === dayOfWeek)`, where
the day of week of the requested date is computed in the viewer zone
(`moment.tz(date, timezone).day()`, i.e. `date % 7` in this model). -/
def dayAvailabilityFor (db : DB) (etId : Nat) (date : Int) : List AvailabilityRule :=
  (availabilityFor db etId).filter (fun a => decide (a.day_of_week = date % 7))

/-- `SELECT * FROM availability_overrides WHERE event_type_id = ? AND
override_date = ?`, destructured to its first row. -/
def overrideFor (db : DB) (etId : Nat) (date : Int) : Option AvailabilityOverride :=
  db.overrides.find? (fun o =>
    decide (o.event_type_id = etId ∧ o.override_date = date))

/-- All slots pushed by the nested generation loops, in push order
(per range, in range order). -/
def allRangeSlots (db : DB) (et : EventType) (date viewerTz now : Int) : List Slot :=
  (effectiveTimeRanges (dayAvailabilityFor db et.id date)
      (overrideFor db et.id date) viewerTz).foldr
    (fun r acc =>
      slotsForRange date et.duration_minutes viewerTz now
        (loadedBookings db et.id date viewerTz) r ++ acc)
    []

/--
`GET /api/booking/slots/:eventSlug`.  `date?` is the `date` query parameter
(`none` = missing), `viewerTz` the `timezone` query parameter (the route
defaults it to UTC, i.e. offset `0`), `now` the ambient `moment.utc()`
instant used by the past filter.
-/
def generateSlots (db : DB) (eventSlug : String) (date? : Option Int)
    (viewerTz now : Int) : SlotsResult :=
  match date? with
  | none => .badRequest
  | some date =>
    match findEventTypeBySlug db eventSlug with
    | none => .notFound
    | some et =>
      if (availabilityFor db et.id).isEmpty then .ok []
      else if (dayAvailabilityFor db et.id date).isEmpty then .ok []
      else if (overrideFor db et.id date).any (fun o => !o.is_available) then .ok []
      else .ok (sortSlots (allRangeSlots db et date viewerTz now))

/-! ## Booking transaction (`POST /api/booking`) -/

/-- The request body of `POST /api/booking`.  `startTime` is the requested
civil start (minutes) and `timezone` the requested zone offset; `none`
models an absent (falsy) field. -/
structure BookingRequest where
  eventSlug : String
  inviteeName : String
  inviteeEmail : String
  startTime : Option Int
  timezone : Option Int
deriving DecidableEq, Repr

/-- Response of `POST /api/booking`. -/
inductive BookingResult
  | badRequest
  | notFound
  | conflict
  | created (m : Meeting)
deriving DecidableEq, Repr

/-- `!eventSlug || !inviteeName || !inviteeEmail || !startTime || !timezone`
(negated). -/
def bookingFieldsPresent (r : BookingRequest) : Bool :=
  decide (r.eventSlug ≠ "") && decide (r.inviteeName ≠ "") &&
    decide (r.inviteeEmail ≠ "") && r.startTime.isSome && r.timezone.isSome

/--
The conflict SELECT: `SELECT id FROM meetings WHERE event_type_id = ? AND
status = 'scheduled' AND start_time < endUTC AND end_time > startUTC`,
tested non-empty.
-/
def conflictExists (db : DB) (etId : Nat) (startUTC endUTC : Int) : Bool :=
  db.meetings.any (fun m =>
    decide (m.event_type_id = etId ∧ m.status = MeetingStatus.scheduled ∧
      m.start_time < endUTC ∧ startUTC < m.end_time))

/-- The INSERT INTO meetings statement (with the fresh AUTO_INCREMENT id). -/
def insertMeeting (db : DB) (etId : Nat) (name email : String)
    (startUTC endUTC tz : Int) : Meeting × DB :=
  let m : Meeting :=
    ⟨db.nextMeetingId, etId, name, email, startUTC, endUTC, tz, .scheduled⟩
  (m, { db with meetings := db.meetings ++ [m],
                nextMeetingId := db.nextMeetingId + 1 })

/--
`POST /api/booking`.  The route issues the conflict SELECT and the INSERT as
two separate `db.query` calls on the pool — no transaction, lock or unique
constraint around them; this definition is their sequential composition.
-/
def createBooking (db : DB) (r : BookingRequest) : BookingResult × DB :=
  if !bookingFieldsPresent r then (.badRequest, db)
  else
    match findEventTypeBySlug db r.eventSlug with
    | none => (.notFound, db)
    | some et =>
      let startUTC := r.startTime.getD 0 - r.timezone.getD 0
      let endUTC := startUTC + et.duration_minutes
      if conflictExists db et.id startUTC endUTC then (.conflict, db)
      else
        let (m, db') := insertMeeting db et.id r.inviteeName r.inviteeEmail
          startUTC endUTC (r.timezone.getD 0)
        (.created m, db')

/-- HTTP status the route sends for each booking outcome. -/
def bookingHttpStatus : BookingResult → Nat
  | .badRequest => 400
  | .notFound => 404
  | .conflict => 409
  | .created _ => 201

/-! ## Availability save (`POST /api/availability`) -/

/-- One entry of the request's `availability` array; `none` models an
absent/falsy field. -/
structure AvailabilityInput where
  dayOfWeek : Option Int
  startTime : Option Int
  endTime : Option Int
  timezone : Option Int
deriving DecidableEq, Repr

/-- Response of `POST /api/availability`. -/
inductive SaveResult
  | badRequest
  | notFound
  | serverError
  | ok (rules : List AvailabilityRule)
deriving DecidableEq, Repr

/-- The per-row check `dayOfWeek === undefined || !startTime || !endTime`
(negated). -/
def validRow (a : AvailabilityInput) : Bool :=
  a.dayOfWeek.isSome && a.startTime.isSome && a.endTime.isSome

/-- The INSERT row built from one input (`timezone || 'UTC'`). -/
def rowToRule (etId : Nat) (a : AvailabilityInput) : AvailabilityRule :=
  ⟨etId, a.dayOfWeek.getD 0, a.startTime.getD 0, a.endTime.getD 0,
    a.timezone.getD 0⟩

/-- The insert loop inside the transaction: `none` models the thrown
`'Invalid availability data'` error (which rolls the transaction back). -/
def insertRows (etId : Nat) : List AvailabilityInput → Option (List AvailabilityRule)
  | [] => some []
  | a :: rest =>
    if validRow a then (insertRows etId rest).map (fun l => rowToRule etId a :: l)
    else none

/--
`POST /api/availability`: verify the event type exists, then inside one
transaction delete every `availability` row of the event type and insert the
provided rows; any invalid row throws and the transaction rolls back,
leaving the database unchanged (the outer catch answers 500).
(`!eventTypeId` also rejects the falsy id `0`.)
-/
def saveAvailability (db : DB) (etId : Nat) (rows : List AvailabilityInput) :
    SaveResult × DB :=
  if etId = 0 then (.badRequest, db)
  else
    match db.event_types.find? (fun et => decide (et.id = etId)) with
    | none => (.notFound, db)
    | some _ =>
      match insertRows etId rows with
      | none => (.serverError, db)
      | some newRules =>
        (.ok newRules,
         { db with availability :=
            db.availability.filter (fun a => decide (a.event_type_id ≠ etId))
              ++ newRules })

/-! ## Meeting cancellation (`PATCH /api/meetings/:id/cancel`) -/

/-- Response of `PATCH /api/meetings/:id/cancel`. -/
inductive CancelResult
  | notFound
  | alreadyCancelled
  | ok (m : Meeting)
deriving DecidableEq, Repr

/-- HTTP status the route sends for each cancel outcome (`400` for the
`'Meeting is already cancelled'` rejection). -/
def cancelHttpStatus : CancelResult → Nat
  | .notFound => 404
  | .alreadyCancelled => 400
  | .ok _ => 200

/--
`PATCH /api/meetings/:id/cancel`: fetch the meeting, 404 if absent, 400 if
already cancelled, otherwise `UPDATE meetings SET status = 'cancelled'
WHERE id = ?` and return the refetched row.
-/
def cancelMeeting (db : DB) (id : Nat) : CancelResult × DB :=
  match db.meetings.find? (fun m => decide (m.id = id)) with
  | none => (.notFound, db)
  | some m =>
    if m.status = MeetingStatus.cancelled then (.alreadyCancelled, db)
    else
      let meetings' := db.meetings.map (fun x =>
        if x.id = id then { x with status := MeetingStatus.cancelled } else x)
      let db' := { db with meetings := meetings' }
      match meetings'.find? (fun x => decide (x.id = id)) with
      | some updated => (.ok updated, db')
      | none => (.notFound, db')

/-! ## Concurrent booking requests

`POST /api/booking` issues its conflict SELECT and its INSERT as two plain
`db.query` calls on the connection pool, with no transaction, row lock or
unique constraint tying them together.  Two concurrent requests therefore
interleave at statement granularity; the state below records one in-flight
request between its two statements. -/

/-- One in-flight booking request after field validation and event-type
resolution, split into its two unsynchronized statements.  `checkResult`
holds the outcome of its conflict SELECT once that statement ran. -/
structure RaceSession where
  etId : Nat
  name : String
  email : String
  startUTC : Int
  endUTC : Int
  tz : Int
  checkResult : Option Bool
deriving DecidableEq, Repr

/-- Run the request's conflict SELECT against the current database state. -/
def doCheck (db : DB) (s : RaceSession) : RaceSession :=
  { s with checkResult := some (conflictExists db s.etId s.startUTC s.endUTC) }

/-- Run the request's INSERT: it executes whenever the request's own earlier
SELECT saw no conflict, regardless of writes that happened in between. -/
def doInsert (db : DB) (s : RaceSession) : DB :=
  match s.checkResult with
  | some false => (insertMeeting db s.etId s.name s.email s.startUTC s.endUTC s.tz).2
  | _ => db

/-- The scheduled meetings of an event type whose stored interval overlaps
`[startUTC, endUTC)` (open-interval test). -/
def overlappingScheduled (db : DB) (etId : Nat) (startUTC endUTC : Int) :
    List Meeting :=
  db.meetings.filter (fun m =>
    decide (m.event_type_id = etId ∧ m.status = MeetingStatus.scheduled ∧
      m.start_time < endUTC ∧ startUTC < m.end_time))

/-! ## Concrete instances used by witnesses and counterexamples -/

/-- C1 witness state: one event type, one scheduled meeting on `[100,130)`. -/
def C1db : DB :=
  { event_types := [⟨1, "Thirty", "thirty", 30⟩],
    availability := [],
    overrides := [],
    meetings := [⟨1, 1, "X", "x@x", 100, 130, 0, .scheduled⟩],
    nextMeetingId := 2 }

/-- C1 witness request: civil start 200 in zone offset 60, UTC `[140,170)`. -/
def C1req : BookingRequest := ⟨"thirty", "Ann", "ann@x", some 200, some 60⟩

/-- C2 initial state: one event type, no meetings. -/
def C2db : DB :=
  { event_types := [⟨1, "Q", "q", 30⟩],
    availability := [],
    overrides := [],
    meetings := [],
    nextMeetingId := 1 }

/-- C2: first concurrent request for UTC slot `[100,130)`. -/
def C2sessA : RaceSession := ⟨1, "A", "a@x", 100, 130, 0, none⟩

/-- C2: second concurrent request for the same slot. -/
def C2sessB : RaceSession := ⟨1, "B", "b@x", 100, 130, 0, none⟩

/-- C3 state: a weekly rule (day 1, 09:00–10:00) stored with zone offset 60,
to be viewed from zone offset 0. -/
def C3db : DB :=
  { event_types := [⟨1, "Ev", "ev", 30⟩],
    availability := [⟨1, 1, 540, 600, 60⟩],
    overrides := [],
    meetings := [],
    nextMeetingId := 1 }

/-- C4 witness bookings: one scheduled meeting ending exactly at the first
candidate slot start (UTC 1440). -/
def C4bookings : List Meeting := [⟨1, 1, "B", "b@x", 1410, 1440, 0, .scheduled⟩]

/-- C5 state: weekly rule 09:00–17:00 on day 1 and an available override
13:00–14:00 for date 1. -/
def C5db : DB :=
  { event_types := [⟨1, "Ev", "ev", 30⟩],
    availability := [⟨1, 1, 540, 1020, 0⟩],
    overrides := [⟨1, 1, true, some 780, some 840⟩],
    meetings := [],
    nextMeetingId := 1 }

/-- C5 state with a blocking override for date 1. -/
def C5dbBlocked : DB :=
  { event_types := [⟨1, "Ev", "ev", 30⟩],
    availability := [⟨1, 1, 540, 1020, 0⟩],
    overrides := [⟨1, 1, false, none, none⟩],
    meetings := [],
    nextMeetingId := 1 }

/-- C6/C7 state: one event type with one pre-existing availability rule. -/
def C6db : DB :=
  { event_types := [⟨1, "Ev", "ev", 30⟩],
    availability := [⟨1, 2, 100, 200, 0⟩],
    overrides := [],
    meetings := [],
    nextMeetingId := 1 }

/-- C7 row list: all fields present but day-of-week `9 ∉ {0..6}` and
`start_time > end_time`. -/
def C7rows : List AvailabilityInput := [⟨some 9, some 540, some 480, some 0⟩]

/-- C8 state: meeting 1 is cancelled, meeting 2 is completed. -/
def C8db : DB :=
  { event_types := [⟨1, "Ev", "ev", 30⟩],
    availability := [],
    overrides := [],
    meetings := [⟨1, 1, "C", "c@x", 100, 130, 0, .cancelled⟩,
                 ⟨2, 1, "D", "d@x", 200, 230, 0, .completed⟩],
    nextMeetingId := 3 }

/-- C9 state: the only weekly rule is on day 3 (so UTC 100 on day 0 lies in
no rule window) and date 0 carries a blocking override. -/
def C9db : DB :=
  { event_types := [⟨1, "Ev", "ev", 30⟩],
    availability := [⟨1, 3, 540, 600, 0⟩],
    overrides := [⟨1, 0, false, none, none⟩],
    meetings := [],
    nextMeetingId := 1 }

/-- C9 request: books UTC `[100,130)` on the blocked date 0. -/
def C9req : BookingRequest := ⟨"ev", "Ann", "ann@x", some 100, some 0⟩

/-- C10 state: rule 00:00–02:00 on day 1 (UTC), and a scheduled meeting
Sunday 23:45–Monday 00:15 UTC — its start lies before the UTC window of
viewer-day 1, so the slot query never loads it. -/
def C10db : DB :=
  { event_types := [⟨1, "Ev", "ev", 30⟩],
    availability := [⟨1, 1, 0, 120, 0⟩],
    overrides := [],
    meetings := [⟨1, 1, "M", "m@x", 1425, 1455, 0, .scheduled⟩],
    nextMeetingId := 2 }

/-! ## Helper lemmas -/

/-- The conflict SELECT is non-empty exactly when a stored scheduled meeting
of the event type overlaps `[startUTC, endUTC)` open-interval-wise. -/
theorem conflictExists_iff (db : DB) (etId : Nat) (startUTC endUTC : Int) :
    conflictExists db etId startUTC endUTC = true ↔
      ∃ m ∈ db.meetings, m.event_type_id = etId ∧ m.status = .scheduled ∧
        m.start_time < endUTC ∧ startUTC < m.end_time := by
  simp [conflictExists, List.any_eq_true]

/-- Every candidate start produced by the generation loop lies in the range
and fits entirely before the range end, and the loop only produces
candidates for a positive duration. -/
theorem mem_slotStarts {e d : Int} :
    ∀ {s c : Int}, c ∈ slotStarts s e d → s ≤ c ∧ c + d ≤ e ∧ 0 < d := by
  have key : ∀ (n : Nat) (s c : Int), (e - s).toNat ≤ n →
      c ∈ slotStarts s e d → s ≤ c ∧ c + d ≤ e ∧ 0 < d := by
    intro n
    induction n with
    | zero =>
      intro s c hn hc
      rw [slotStarts] at hc
      split at hc
      · rename_i hcond
        omega
      · simp at hc
    | succ n ih =>
      intro s c hn hc
      rw [slotStarts] at hc
      split at hc
      · rename_i hcond
        rcases List.mem_cons.mp hc with rfl | hmem
        · exact ⟨le_refl _, hcond.2, hcond.1⟩
        · have h2 := ih (s + d) c (by omega) hmem
          exact ⟨by omega, h2.2.1, h2.2.2⟩
      · simp at hc
  intro s c hc
  exact key (e - s).toNat s c le_rfl hc

/-- Membership in the per-range slot list: a slot is emitted exactly for a
loop candidate that has no open-interval conflict with a loaded booking and
is not in the past. -/
theorem mem_slotsForRange {date dur viewerTz now : Int} {bookings : List Meeting}
    {r : TimeRange} {s : Slot} :
    s ∈ slotsForRange date dur viewerTz now bookings r ↔
      ∃ c ∈ slotStarts (date * 1440 + r.start_time) (date * 1440 + r.end_time) dur,
        s = ⟨c, c + dur, viewerTz⟩ ∧
        (¬ ∃ b ∈ bookings,
            c - r.timezone < b.end_time ∧ b.start_time < c + dur - r.timezone) ∧
        now ≤ c - r.timezone := by
  simp only [slotsForRange, List.mem_filterMap]
  constructor
  · rintro ⟨c, hc, hf⟩
    split at hf
    · exact absurd hf (by simp)
    · rename_i hcond
      simp only [Bool.or_eq_true, List.any_eq_true, decide_eq_true_eq, not_or,
        not_exists, not_and, not_lt] at hcond
      refine ⟨c, hc, ?_, ?_, hcond.2⟩
      · exact (Option.some_injective _ hf).symm
      · rintro ⟨b, hb, h1, h2⟩
        exact absurd h2 (not_lt.mpr (le_of_not_lt (fun h2' => absurd h1 (by
          have := hcond.1 b hb
          omega))))
  · rintro ⟨c, hc, rfl, hno, hpast⟩
    refine ⟨c, hc, ?_⟩
    have hcond : ((bookings.any fun b =>
        decide (c - r.timezone < b.end_time ∧ b.start_time < c + dur - r.timezone)) ||
          decide (c - r.timezone < now)) = false := by
      simp only [Bool.or_eq_false_iff, List.any_eq_false, decide_eq_true_eq,
        decide_eq_false_iff_not, not_lt]
      exact ⟨fun b hb hov => hno ⟨b, hb, hov⟩, hpast⟩
    simp only [hcond]
    rfl

/-- Unfolding membership in a fold of list-appends. -/
theorem mem_foldr_append {α β : Type} (f : α → List β) :
    ∀ (l : List α) (b : β),
      b ∈ l.foldr (fun a acc => f a ++ acc) [] ↔ ∃ a ∈ l, b ∈ f a := by
  intro l b
  induction l with
  | nil => simp
  | cons a l ih => simp [List.mem_append, ih]

/-- Membership in the combined pre-sort slot list. -/
theorem mem_allRangeSlots {db : DB} {et : EventType} {date viewerTz now : Int}
    {s : Slot} :
    s ∈ allRangeSlots db et date viewerTz now ↔
      ∃ r ∈ effectiveTimeRanges (dayAvailabilityFor db et.id date)
          (overrideFor db et.id date) viewerTz,
        s ∈ slotsForRange date et.duration_minutes viewerTz now
          (loadedBookings db et.id date viewerTz) r := by
  exact mem_foldr_append _ _ s

/-- The final sort is a permutation: membership is unchanged. -/
theorem mem_sortSlots {l : List Slot} {s : Slot} : s ∈ sortSlots l ↔ s ∈ l :=
  (List.perm_insertionSort slotLE l).mem_iff

/-- The final sort sorts ascending by emitted start. -/
theorem sorted_sortSlots (l : List Slot) : (sortSlots l).Sorted slotLE :=
  List.sorted_insertionSort slotLE l

/-- On the full generation path the endpoint answers the sorted combined
slot list. -/
theorem generateSlots_eq_ok {db : DB} {slug : String} {date viewerTz now : Int}
    {et : EventType}
    (he : findEventTypeBySlug db slug = some et)
    (ha : (availabilityFor db et.id).isEmpty = false)
    (hd : (dayAvailabilityFor db et.id date).isEmpty = false)
    (ho : (overrideFor db et.id date).any (fun o => !o.is_available) = false) :
    generateSlots db slug (some date) viewerTz now =
      .ok (sortSlots (allRangeSlots db et date viewerTz now)) := by
  simp [generateSlots, he, ha, hd, ho]

/-- Any successful slot answer is either one of the early empty answers or
the sorted combined slot list. -/
theorem generateSlots_ok_cases {db : DB} {slug : String} {date viewerTz now : Int}
    {et : EventType} {L : List Slot}
    (he : findEventTypeBySlug db slug = some et)
    (hL : generateSlots db slug (some date) viewerTz now = .ok L) :
    L = [] ∨ L = sortSlots (allRangeSlots db et date viewerTz now) := by
  unfold generateSlots at hL
  rw [he] at hL
  dsimp only at hL
  split_ifs at hL <;> simp only [SlotsResult.ok.injEq] at hL
  · exact Or.inl hL.symm
  · exact Or.inl hL.symm
  · exact Or.inl hL.symm
  · exact Or.inr hL.symm

/-- Full behaviour of `createBooking` once the fields are present and the
event type resolves: conflict (with the state unchanged) exactly on an
open-interval overlap with a stored scheduled meeting, otherwise one new
scheduled meeting on `[startUTC, startUTC + duration)` is appended. -/
theorem createBooking_spec (db : DB) (r : BookingRequest)
    (et : EventType) (c tz : Int)
    (hs : r.startTime = some c) (htz : r.timezone = some tz)
    (hslug : r.eventSlug ≠ "") (hname : r.inviteeName ≠ "")
    (hmail : r.inviteeEmail ≠ "")
    (he : findEventTypeBySlug db r.eventSlug = some et) :
    (createBooking db r = (.conflict, db) ↔
      ∃ m ∈ db.meetings, m.event_type_id = et.id ∧ m.status = .scheduled ∧
        m.start_time < (c - tz) + et.duration_minutes ∧ c - tz < m.end_time)
    ∧ ((¬ ∃ m ∈ db.meetings, m.event_type_id = et.id ∧ m.status = .scheduled ∧
          m.start_time < (c - tz) + et.duration_minutes ∧ c - tz < m.end_time) →
      createBooking db r =
        (.created ⟨db.nextMeetingId, et.id, r.inviteeName, r.inviteeEmail,
            c - tz, (c - tz) + et.duration_minutes, tz, .scheduled⟩,
          { db with
              meetings := db.meetings ++
                [⟨db.nextMeetingId, et.id, r.inviteeName, r.inviteeEmail,
                  c - tz, (c - tz) + et.duration_minutes, tz, .scheduled⟩],
              nextMeetingId := db.nextMeetingId + 1 })) := by
  have hp : bookingFieldsPresent r = true := by
    simp [bookingFieldsPresent, hs, htz, hslug, hname, hmail]
  simp only [createBooking, hp, Bool.not_true, Bool.false_eq_true, if_false,
    he, hs, htz, Option.getD_some, insertMeeting]
  by_cases hc : conflictExists db et.id (c - tz) (c - tz + et.duration_minutes) = true
  · simp only [hc, eq_self_iff_true, if_true]
    exact ⟨iff_of_true trivial ((conflictExists_iff db et.id _ _).mp hc),
      fun hn => absurd ((conflictExists_iff db et.id _ _).mp hc) hn⟩
  · have hc' : conflictExists db et.id (c - tz) (c - tz + et.duration_minutes) = false :=
      Bool.eq_false_iff.mpr hc
    simp only [hc', Bool.false_eq_true, if_false]
    constructor
    · apply iff_of_false
      · intro hEq
        exact absurd (congrArg Prod.fst hEq) (by simp)
      · intro hex
        exact hc ((conflictExists_iff db et.id _ _).mpr hex)
    · intro _
      trivial

/-! ## Claims -/

/-- C1: for every booking request whose event type exists and whose required
fields are all present, the operation fails with Conflict and inserts no
meeting iff some existing scheduled meeting of that event type overlaps
`[startUTC, startUTC + duration_minutes)` under the open-interval test;
otherwise it inserts exactly one scheduled meeting on that UTC interval,
where `startUTC` is the requested civil start interpreted in the requested
timezone. -/
theorem booking_transaction_contract (db : DB) (r : BookingRequest)
    (et : EventType) (c tz : Int)
    (hs : r.startTime = some c) (htz : r.timezone = some tz)
    (hslug : r.eventSlug ≠ "") (hname : r.inviteeName ≠ "")
    (hmail : r.inviteeEmail ≠ "")
    (he : findEventTypeBySlug db r.eventSlug = some et) :
    (createBooking db r = (.conflict, db) ↔
      ∃ m ∈ db.meetings, m.event_type_id = et.id ∧ m.status = .scheduled ∧
        m.start_time < (c - tz) + et.duration_minutes ∧ c - tz < m.end_time)
    ∧ ((¬ ∃ m ∈ db.meetings, m.event_type_id = et.id ∧ m.status = .scheduled ∧
          m.start_time < (c - tz) + et.duration_minutes ∧ c - tz < m.end_time) →
      createBooking db r =
        (.created ⟨db.nextMeetingId, et.id, r.inviteeName, r.inviteeEmail,
            c - tz, (c - tz) + et.duration_minutes, tz, .scheduled⟩,
          { db with
              meetings := db.meetings ++
                [⟨db.nextMeetingId, et.id, r.inviteeName, r.inviteeEmail,
                  c - tz, (c - tz) + et.duration_minutes, tz, .scheduled⟩],
              nextMeetingId := db.nextMeetingId + 1 })) :=
  createBooking_spec db r et c tz hs htz hslug hname hmail he

/-- C1 witness: booking `[140,170)` against a store holding only `[100,130)`
succeeds and appends exactly one scheduled meeting. -/
theorem booking_transaction_contract_witness :
    createBooking C1db C1req =
      (.created ⟨2, 1, "Ann", "ann@x", 140, 170, 60, .scheduled⟩,
        { C1db with
            meetings := C1db.meetings ++
              [⟨2, 1, "Ann", "ann@x", 140, 170, 60, .scheduled⟩],
            nextMeetingId := 3 }) := by
  have h := (booking_transaction_contract C1db C1req ⟨1, "Thirty", "thirty", 30⟩
    200 60 rfl rfl (by decide) (by decide) (by decide) (by decide)).2 (by decide)
  exact h

/-- C2: the route runs the conflict SELECT and the INSERT as two separate
unsynchronized statements, so in the interleaving
SELECT·A, SELECT·B, INSERT·A, INSERT·B of two concurrent requests for the
same slot both SELECTs see no conflict, both INSERTs execute, and the
committed state holds two overlapping scheduled meetings — the claimed
at-most-one-succeeds guarantee fails. -/
theorem booking_race_two_inserts :
    (doCheck C2db C2sessA).checkResult = some false ∧
    (doCheck C2db C2sessB).checkResult = some false ∧
    (doInsert (doInsert C2db (doCheck C2db C2sessA)) (doCheck C2db C2sessB)).meetings.length = 2 ∧
    (overlappingScheduled
        (doInsert (doInsert C2db (doCheck C2db C2sessA)) (doCheck C2db C2sessB))
        1 100 130).length = 2 := by
  decide

/-- The booking route never reads the `availability` or
`availability_overrides` tables: replacing them changes nothing but those
fields of the resulting state. -/
theorem createBooking_availability_invariant (db : DB) (r : BookingRequest)
    (av : List AvailabilityRule) (ov : List AvailabilityOverride) :
    createBooking { db with availability := av, overrides := ov } r =
      ((createBooking db r).1,
        { (createBooking db r).2 with availability := av, overrides := ov }) := by
  simp only [createBooking]
  have h1 : findEventTypeBySlug { db with availability := av, overrides := ov }
      r.eventSlug = findEventTypeBySlug db r.eventSlug := rfl
  rw [h1]
  by_cases hb : bookingFieldsPresent r = true
  · simp only [hb, Bool.not_true, Bool.false_eq_true, if_false]
    cases hf : findEventTypeBySlug db r.eventSlug with
    | none => rfl
    | some et =>
      dsimp only
      have h2 : conflictExists { db with availability := av, overrides := ov }
          et.id (r.startTime.getD 0 - r.timezone.getD 0)
          (r.startTime.getD 0 - r.timezone.getD 0 + et.duration_minutes) =
            conflictExists db et.id (r.startTime.getD 0 - r.timezone.getD 0)
              (r.startTime.getD 0 - r.timezone.getD 0 + et.duration_minutes) := rfl
      rw [h2]
      by_cases hc : conflictExists db et.id (r.startTime.getD 0 - r.timezone.getD 0)
          (r.startTime.getD 0 - r.timezone.getD 0 + et.duration_minutes) = true
      · simp only [hc, eq_self_iff_true, if_true]
      · have hc' := Bool.eq_false_iff.mpr hc
        simp only [hc', Bool.false_eq_true, if_false, insertMeeting]
  · have hb' := Bool.eq_false_iff.mpr hb
    simp only [hb', Bool.not_false, if_true]

/-- C9 (implicit): booking validates the requested interval only against
overlap with stored scheduled meetings; when no overlap exists the booking
is created even though the start may lie outside every availability-rule
window, on a date blocked by an `is_available = false` override, or in the
past (the route consults no availability data and no current instant). -/
theorem booking_accepts_arbitrary_start (db : DB) (r : BookingRequest)
    (et : EventType) (c tz : Int)
    (hs : r.startTime = some c) (htz : r.timezone = some tz)
    (hslug : r.eventSlug ≠ "") (hname : r.inviteeName ≠ "")
    (hmail : r.inviteeEmail ≠ "")
    (he : findEventTypeBySlug db r.eventSlug = some et)
    (hnc : ¬ ∃ m ∈ db.meetings, m.event_type_id = et.id ∧
        m.status = .scheduled ∧
        m.start_time < (c - tz) + et.duration_minutes ∧ c - tz < m.end_time) :
    ((createBooking db r).1 =
      .created ⟨db.nextMeetingId, et.id, r.inviteeName, r.inviteeEmail,
        c - tz, (c - tz) + et.duration_minutes, tz, .scheduled⟩)
    ∧ (∀ (av : List AvailabilityRule) (ov : List AvailabilityOverride),
        createBooking { db with availability := av, overrides := ov } r =
          ((createBooking db r).1,
            { (createBooking db r).2 with availability := av, overrides := ov })) := by
  constructor
  · have h := (createBooking_spec db r et c tz hs htz hslug hname hmail he).2 hnc
    rw [h]
  · intro av ov
    exact createBooking_availability_invariant db r av ov

/-- C9 witness: the request books UTC `[100,130)` on a date whose override
blocks the whole day, with the only weekly rule on another day, and no
meeting conflicts — the booking is still created. -/
theorem booking_accepts_arbitrary_start_witness :
    ((createBooking C9db C9req).1 =
      .created ⟨1, 1, "Ann", "ann@x", 100, 130, 0, .scheduled⟩)
    ∧ C9db.overrides = [⟨1, 0, false, none, none⟩]
    ∧ C9db.availability = [⟨1, 3, 540, 600, 0⟩] := by
  refine ⟨?_, rfl, rfl⟩
  have h := (booking_accepts_arbitrary_start C9db C9req ⟨1, "Ev", "ev", 30⟩
    100 0 rfl rfl (by decide) (by decide) (by decide) (by decide) (by decide)).1
  exact h

unseal slotStarts in
/-- C3 counterexample: with a weekly rule stored in zone offset 60 viewed
from zone offset 0, the emitted slot starts/ends are the civil values in the
rule's zone (09:00 stays `1980 = 1·1440 + 540`), not the civil values in the
viewer zone (which would be `1920 = (1980 - 60) + 0`): the slots are not
formatted in `viewerTimezone` as claimed. -/
theorem slots_viewer_timezone_counterexample :
    generateSlots C3db "ev" (some 1) 0 (-1000000) =
      .ok [⟨1980, 2010, 0⟩, ⟨2010, 2040, 0⟩] ∧
    effectiveTimeRanges (dayAvailabilityFor C3db 1 1) (overrideFor C3db 1 1) 0 =
      [⟨540, 600, 60⟩] ∧
    ((1980 : Int) - 60 + 0 ≠ 1980) := by
  decide

/-- C3 (amended): every emitted slot carries `timezone = viewerTimezone`, is
exactly `duration_minutes` long, and the sequence is sorted ascending by
start; but the start/end are the civil values anchored in the generating
time range's own timezone (the weekly rule's stored timezone, or
`viewerTimezone` only when the range comes from an override). -/
theorem slots_output_shape (db : DB) (slug : String) (date viewerTz now : Int)
    (et : EventType) (L : List Slot)
    (he : findEventTypeBySlug db slug = some et)
    (hL : generateSlots db slug (some date) viewerTz now = .ok L) :
    L.Sorted slotLE ∧
    ∀ s ∈ L, s.timezone = viewerTz ∧ s.stop - s.start = et.duration_minutes ∧
      ∃ r ∈ effectiveTimeRanges (dayAvailabilityFor db et.id date)
          (overrideFor db et.id date) viewerTz,
        s.start ∈ slotStarts (date * 1440 + r.start_time)
          (date * 1440 + r.end_time) et.duration_minutes ∧
        s.stop = s.start + et.duration_minutes := by
  rcases generateSlots_ok_cases he hL with rfl | rfl
  · exact ⟨List.sorted_nil, by simp⟩
  · refine ⟨sorted_sortSlots _, ?_⟩
    intro s hsL
    obtain ⟨r, hr, hsr⟩ := mem_allRangeSlots.mp (mem_sortSlots.mp hsL)
    obtain ⟨c, hc, rfl, -, -⟩ := mem_slotsForRange.mp hsr
    refine ⟨rfl, ?_, r, hr, hc, rfl⟩
    show c + et.duration_minutes - c = et.duration_minutes
    omega

unseal slotStarts in
/-- C3 amended witness: the concrete run of the counterexample satisfies the
amended shape (sorted, viewer timezone label, 30 minutes long, anchored in
the rule's zone). -/
theorem slots_output_shape_witness :
    ([⟨1980, 2010, 0⟩, ⟨2010, 2040, 0⟩] : List Slot).Sorted slotLE ∧
    ∀ s ∈ ([⟨1980, 2010, 0⟩, ⟨2010, 2040, 0⟩] : List Slot),
      s.timezone = 0 ∧ s.stop - s.start = 30 ∧
      ∃ r ∈ effectiveTimeRanges (dayAvailabilityFor C3db 1 1)
          (overrideFor C3db 1 1) 0,
        s.start ∈ slotStarts (1 * 1440 + r.start_time)
          (1 * 1440 + r.end_time) 30 ∧
        s.stop = s.start + 30 := by
  have h := slots_output_shape C3db "ev" 1 0 (-1000000) ⟨1, "Ev", "ev", 30⟩
    [⟨1980, 2010, 0⟩, ⟨2010, 2040, 0⟩] (by decide) (by decide)
  exact h

/-- C4: a candidate slot is kept iff no loaded scheduled meeting satisfies
the open-interval test `slotStartUTC < meetingEnd ∧ meetingStart <
slotEndUTC` and the slot is not past; in particular meetings that only touch
the slot's boundaries never discard it. -/
theorem slot_conflict_open_interval (date dur viewerTz now : Int)
    (bookings : List Meeting) (r : TimeRange) (c : Int)
    (hc : c ∈ slotStarts (date * 1440 + r.start_time)
      (date * 1440 + r.end_time) dur) :
    ((⟨c, c + dur, viewerTz⟩ : Slot) ∈
        slotsForRange date dur viewerTz now bookings r ↔
      (¬ ∃ b ∈ bookings, c - r.timezone < b.end_time ∧
          b.start_time < c + dur - r.timezone) ∧ now ≤ c - r.timezone)
    ∧ ((∀ b ∈ bookings, b.end_time ≤ c - r.timezone ∨
          c + dur - r.timezone ≤ b.start_time) → now ≤ c - r.timezone →
        (⟨c, c + dur, viewerTz⟩ : Slot) ∈
          slotsForRange date dur viewerTz now bookings r) := by
  have hmem : (⟨c, c + dur, viewerTz⟩ : Slot) ∈
      slotsForRange date dur viewerTz now bookings r ↔
      (¬ ∃ b ∈ bookings, c - r.timezone < b.end_time ∧
          b.start_time < c + dur - r.timezone) ∧ now ≤ c - r.timezone := by
    rw [mem_slotsForRange]
    constructor
    · rintro ⟨c', hc', heq, hno, hpast⟩
      have : c = c' := congrArg Slot.start heq
      subst this
      exact ⟨hno, hpast⟩
    · rintro ⟨hno, hpast⟩
      exact ⟨c, hc, rfl, hno, hpast⟩
  refine ⟨hmem, fun htouch hpast => hmem.mpr ⟨?_, hpast⟩⟩
  rintro ⟨b, hb, h1, h2⟩
  rcases htouch b hb with h | h <;> omega

unseal slotStarts in
/-- C4 witness: a scheduled meeting ending exactly at UTC 1440 does not
conflict with the candidate slot starting at 1440; the slot is kept. -/
theorem slot_conflict_open_interval_witness :
    (⟨1440, 1470, 0⟩ : Slot) ∈ slotsForRange 1 30 0 0 C4bookings ⟨0, 60, 0⟩ := by
  have h := (slot_conflict_open_interval 1 30 0 0 C4bookings ⟨0, 60, 0⟩ 1440
    (by decide)).2 (by decide) (by decide)
  exact h

/-- C5: when the date's override exists, is available and carries both
times, the effective time range set is exactly the single override range
interpreted in the viewer timezone and every emitted slot lies inside it;
when the override has `is_available = false` the answer is the empty slot
list regardless of the weekly rules. -/
theorem override_replacement (db : DB) (slug : String) (date viewerTz now : Int)
    (et : EventType) (o : AvailabilityOverride)
    (he : findEventTypeBySlug db slug = some et)
    (ho : overrideFor db et.id date = some o) :
    (∀ s e, o.is_available = true → o.start_time = some s →
      o.end_time = some e →
      effectiveTimeRanges (dayAvailabilityFor db et.id date)
          (overrideFor db et.id date) viewerTz = [⟨s, e, viewerTz⟩] ∧
      ∀ L, generateSlots db slug (some date) viewerTz now = .ok L →
        ∀ sl ∈ L, date * 1440 + s ≤ sl.start ∧ sl.stop ≤ date * 1440 + e)
    ∧ (o.is_available = false →
        generateSlots db slug (some date) viewerTz now = .ok []) := by
  constructor
  · intro s e hA hst hen
    have hranges : effectiveTimeRanges (dayAvailabilityFor db et.id date)
        (overrideFor db et.id date) viewerTz = [⟨s, e, viewerTz⟩] := by
      rw [ho]
      simp [effectiveTimeRanges, hA, hst, hen]
    refine ⟨hranges, ?_⟩
    intro L hL sl hsl
    rcases generateSlots_ok_cases he hL with rfl | rfl
    · simp at hsl
    · obtain ⟨r, hr, hsr⟩ := mem_allRangeSlots.mp (mem_sortSlots.mp hsl)
      rw [hranges, List.mem_singleton] at hr
      subst hr
      obtain ⟨c, hcmem, rfl, -, -⟩ := mem_slotsForRange.mp hsr
      have hb := mem_slotStarts hcmem
      exact ⟨hb.1, hb.2.1⟩
  · intro hB
    have hcond : (overrideFor db et.id date).any (fun o => !o.is_available) = true := by
      simp [ho, hB]
    simp only [generateSlots]
    rw [he]
    dsimp only
    simp only [hcond, eq_self_iff_true, if_true]
    split_ifs <;> rfl

unseal slotStarts in
/-- C5 witness: with rule 09:00–17:00 and available override 13:00–14:00 the
effective range is exactly the override range and both generated slots lie
within it; with a blocking override the answer is empty. -/
theorem override_replacement_witness :
    effectiveTimeRanges (dayAvailabilityFor C5db 1 1) (overrideFor C5db 1 1) 0 =
      [⟨780, 840, 0⟩] ∧
    (∀ sl ∈ ([⟨2220, 2250, 0⟩, ⟨2250, 2280, 0⟩] : List Slot),
      1 * 1440 + 780 ≤ sl.start ∧ sl.stop ≤ 1 * 1440 + 840) ∧
    generateSlots C5dbBlocked "ev" (some 1) 0 0 = .ok [] := by
  have h := override_replacement C5db "ev" 1 0 0 ⟨1, "Ev", "ev", 30⟩
    ⟨1, 1, true, some 780, some 840⟩ (by decide) (by decide)
  have hA := h.1 780 840 rfl rfl rfl
  have h2 := override_replacement C5dbBlocked "ev" 1 0 0 ⟨1, "Ev", "ev", 30⟩
    ⟨1, 1, false, none, none⟩ (by decide) (by decide)
  exact ⟨hA.1, hA.2 _ (by decide), h2.2 rfl⟩

/-- The insert loop succeeds on an all-valid row list and produces exactly
the provided rows (in order). -/
theorem insertRows_all_valid (etId : Nat) :
    ∀ (rows : List AvailabilityInput), (∀ a ∈ rows, validRow a = true) →
      insertRows etId rows = some (rows.map (rowToRule etId)) := by
  intro rows
  induction rows with
  | nil => intro _; rfl
  | cons a rest ih =>
    intro h
    have ha := h a (List.mem_cons_self a rest)
    have ih' := ih (fun b hb => h b (List.mem_cons_of_mem a hb))
    simp [insertRows, ha, ih']

/-- The insert loop throws as soon as some row is invalid. -/
theorem insertRows_invalid (etId : Nat) :
    ∀ (rows : List AvailabilityInput), (∃ a ∈ rows, validRow a = false) →
      insertRows etId rows = none := by
  intro rows
  induction rows with
  | nil =>
    rintro ⟨a, ha, -⟩
    exact absurd ha (List.not_mem_nil a)
  | cons a rest ih =>
    rintro ⟨b, hb, hbv⟩
    rcases List.mem_cons.mp hb with rfl | hb'
    · simp [insertRows, hbv]
    · by_cases ha : validRow a = true
      · simp [insertRows, ha, ih ⟨b, hb', hbv⟩]
      · simp [insertRows, Bool.eq_false_iff.mpr ha]

/-- C6: saving a rule list for an existing event type either replaces the
event type's whole rule set with exactly the provided rows (other event
types' rules untouched), or — when some row fails the presence validation —
rolls back, answering an error with the database unchanged. -/
theorem availability_save_atomic (db : DB) (etId : Nat)
    (rows : List AvailabilityInput) (et : EventType)
    (hid : etId ≠ 0)
    (he : db.event_types.find? (fun x => decide (x.id = etId)) = some et) :
    ((∀ a ∈ rows, validRow a = true) →
      saveAvailability db etId rows =
        (.ok (rows.map (rowToRule etId)),
          { db with availability :=
              db.availability.filter (fun a => decide (a.event_type_id ≠ etId))
                ++ rows.map (rowToRule etId) }) ∧
      (saveAvailability db etId rows).2.availability.filter
          (fun a => decide (a.event_type_id = etId)) = rows.map (rowToRule etId))
    ∧ ((∃ a ∈ rows, validRow a = false) →
        saveAvailability db etId rows = (.serverError, db)) := by
  constructor
  · intro hv
    have hins := insertRows_all_valid etId rows hv
    have heq : saveAvailability db etId rows =
        (.ok (rows.map (rowToRule etId)),
          { db with availability :=
              db.availability.filter (fun a => decide (a.event_type_id ≠ etId))
                ++ rows.map (rowToRule etId) }) := by
      simp only [saveAvailability]
      rw [if_neg hid, he]
      dsimp only
      rw [hins]
    refine ⟨heq, ?_⟩
    rw [heq]
    dsimp only
    rw [List.filter_append]
    have h1 : (db.availability.filter
        (fun a => decide (a.event_type_id ≠ etId))).filter
          (fun a => decide (a.event_type_id = etId)) = [] := by
      rw [List.filter_filter]
      apply List.filter_eq_nil_iff.mpr
      intro a _
      simp
    have h2 : (rows.map (rowToRule etId)).filter
        (fun a => decide (a.event_type_id = etId)) = rows.map (rowToRule etId) := by
      apply List.filter_eq_self.mpr
      intro a ha
      obtain ⟨b, -, rfl⟩ := List.mem_map.mp ha
      simp [rowToRule]
    rw [h1, h2, List.nil_append]
  · intro hinv
    have hins := insertRows_invalid etId rows hinv
    simp only [saveAvailability]
    rw [if_neg hid, he]
    dsimp only
    rw [hins]

/-- C6 witness: a valid one-row save replaces the prior rule (day 2) of the
event type by the provided row; a save containing a row with a missing
`dayOfWeek` answers an error and leaves the store unchanged. -/
theorem availability_save_atomic_witness :
    saveAvailability C6db 1 [⟨some 1, some 540, some 1020, some 0⟩] =
      (.ok [⟨1, 1, 540, 1020, 0⟩],
        { C6db with availability := [⟨1, 1, 540, 1020, 0⟩] }) ∧
    saveAvailability C6db 1 [⟨none, some 540, some 1020, none⟩] =
      (.serverError, C6db) := by
  have h := availability_save_atomic C6db 1 [⟨some 1, some 540, some 1020, some 0⟩]
    ⟨1, "Ev", "ev", 30⟩ (by decide) (by decide)
  have h2 := availability_save_atomic C6db 1 [⟨none, some 540, some 1020, none⟩]
    ⟨1, "Ev", "ev", 30⟩ (by decide) (by decide)
  exact ⟨(h.1 (by decide)).1, h2.2 (by decide)⟩

/-- C7 counterexample: a row with `day_of_week = 9 ∉ {0..6}` and
`start_time > end_time` passes the save's validation — the save succeeds and
the row is written, instead of failing with a validation error and writing
nothing as the claim states. -/
theorem availability_range_validation_counterexample :
    (saveAvailability C6db 1 C7rows).1 = .ok [⟨1, 9, 540, 480, 0⟩] ∧
    (saveAvailability C6db 1 C7rows).2.availability = [⟨1, 9, 540, 480, 0⟩] ∧
    ¬ ((9 : Int) ≤ 6) ∧ ¬ ((540 : Int) < 480) := by
  decide

/-- C7 (amended): the save validates only the presence of `dayOfWeek`,
`startTime` and `endTime` — a row missing one of them makes the whole save
fail with the database unchanged, while rows violating the day-of-week
range or time-order constraints are accepted and written. -/
theorem availability_validation_presence_only (db : DB) (etId : Nat)
    (rows : List AvailabilityInput) (et : EventType)
    (hid : etId ≠ 0)
    (he : db.event_types.find? (fun x => decide (x.id = etId)) = some et) :
    ((∃ a ∈ rows, a.dayOfWeek = none ∨ a.startTime = none ∨ a.endTime = none) →
      saveAvailability db etId rows = (.serverError, db))
    ∧ ((∀ a ∈ rows, a.dayOfWeek.isSome ∧ a.startTime.isSome ∧ a.endTime.isSome) →
      (saveAvailability db etId rows).1 = .ok (rows.map (rowToRule etId))) := by
  constructor
  · rintro ⟨a, ha, hnone⟩
    have hins : insertRows etId rows = none := by
      apply insertRows_invalid
      refine ⟨a, ha, ?_⟩
      rcases hnone with h | h | h <;> simp [validRow, h]
    simp only [saveAvailability]
    rw [if_neg hid, he]
    dsimp only
    rw [hins]
  · intro hv
    have hins : insertRows etId rows = some (rows.map (rowToRule etId)) := by
      apply insertRows_all_valid
      intro a ha
      have := hv a ha
      simp [validRow, this.1, this.2.1, this.2.2]
    simp only [saveAvailability]
    rw [if_neg hid, he]
    dsimp only
    rw [hins]

/-- C7 amended witness: the out-of-range row list is accepted and written;
a row with a missing start time makes the save fail unchanged. -/
theorem availability_validation_presence_only_witness :
    (saveAvailability C6db 1 C7rows).1 = .ok [⟨1, 9, 540, 480, 0⟩] ∧
    saveAvailability C6db 1 [⟨some 1, none, some 600, none⟩] =
      (.serverError, C6db) := by
  have h := availability_validation_presence_only C6db 1 C7rows
    ⟨1, "Ev", "ev", 30⟩ (by decide) (by decide)
  have h2 := availability_validation_presence_only C6db 1
    [⟨some 1, none, some 600, none⟩] ⟨1, "Ev", "ev", 30⟩ (by decide) (by decide)
  exact ⟨h.2 (by decide), h2.1 (by decide)⟩

/-- C8 counterexample: cancelling the already-cancelled meeting 1 is
rejected with HTTP 400, not the 409 the route uses for `Conflict`
(booking overlap); and cancelling the `completed` meeting 2 transitions it
to `cancelled`, a transition the claim rules out. -/
theorem cancel_already_cancelled_counterexample :
    cancelHttpStatus (cancelMeeting C8db 1).1 = 400 ∧
    bookingHttpStatus BookingResult.conflict = 409 ∧
    (cancelMeeting C8db 1).2 = C8db ∧
    (cancelMeeting C8db 2).2.meetings.map Meeting.status =
      [.cancelled, .cancelled] ∧
    C8db.meetings.map Meeting.status = [.cancelled, .completed] := by
  decide

/-- The refetch after the UPDATE returns the updated first matching row. -/
theorem find?_map_cancel (l : List Meeting) (id : Nat) :
    (l.map (fun x =>
        if x.id = id then { x with status := MeetingStatus.cancelled } else x)).find?
        (fun x => decide (x.id = id)) =
      (l.find? (fun x => decide (x.id = id))).map
        (fun x =>
          if x.id = id then { x with status := MeetingStatus.cancelled } else x) := by
  induction l with
  | nil => rfl
  | cons a l ih =>
    by_cases ha : a.id = id
    · rw [List.map_cons,
        List.find?_cons_of_pos _ (by simp [ha]),
        List.find?_cons_of_pos _ (by simp [ha])]
      rfl
    · rw [List.map_cons,
        List.find?_cons_of_neg _ (by simp [ha]),
        List.find?_cons_of_neg _ (by simp [ha])]
      exact ih

/-- C8 (amended): cancellation answers NotFound for an absent meeting;
rejects an already-cancelled meeting unchanged with a 400 error (not the
409 used for `Conflict`); and transitions every non-cancelled meeting —
`scheduled` or `completed` — to `cancelled`. -/
theorem cancel_transitions (db : DB) (id : Nat) :
    (db.meetings.find? (fun m => decide (m.id = id)) = none →
      cancelMeeting db id = (.notFound, db))
    ∧ (∀ m, db.meetings.find? (fun m => decide (m.id = id)) = some m →
        m.status = .cancelled →
        cancelMeeting db id = (.alreadyCancelled, db) ∧
        cancelHttpStatus CancelResult.alreadyCancelled = 400 ∧
        cancelHttpStatus CancelResult.alreadyCancelled ≠
          bookingHttpStatus BookingResult.conflict)
    ∧ (∀ m, db.meetings.find? (fun m => decide (m.id = id)) = some m →
        m.status ≠ .cancelled →
        cancelMeeting db id =
          (.ok { m with status := .cancelled },
            { db with meetings := db.meetings.map (fun x =>
                if x.id = id then { x with status := .cancelled } else x) })) := by
  refine ⟨?_, ?_, ?_⟩
  · intro hf
    simp [cancelMeeting, hf]
  · intro m hf hst
    refine ⟨?_, rfl, by decide⟩
    simp [cancelMeeting, hf, hst]
  · intro m hf hst
    have hid : m.id = id := by
      have := List.find?_some hf
      simpa using this
    simp only [cancelMeeting, hf]
    rw [if_neg hst, find?_map_cancel, hf]
    simp only [Option.map_some']
    rw [if_pos hid]

/-- C8 amended witness: cancelling absent meeting 99 answers NotFound;
cancelling cancelled meeting 1 answers the 400 rejection unchanged;
cancelling completed meeting 2 sets it to cancelled. -/
theorem cancel_transitions_witness :
    cancelMeeting C8db 99 = (.notFound, C8db) ∧
    cancelMeeting C8db 1 = (.alreadyCancelled, C8db) ∧
    cancelMeeting C8db 2 =
      (.ok ⟨2, 1, "D", "d@x", 200, 230, 0, .cancelled⟩,
        { C8db with meetings := [⟨1, 1, "C", "c@x", 100, 130, 0, .cancelled⟩,
            ⟨2, 1, "D", "d@x", 200, 230, 0, .cancelled⟩] }) := by
  refine ⟨(cancel_transitions C8db 99).1 (by decide), ?_, ?_⟩
  · exact ((cancel_transitions C8db 1).2.1 ⟨1, 1, "C", "c@x", 100, 130, 0, .cancelled⟩
      (by decide) rfl).1
  · have h := (cancel_transitions C8db 2).2.2 ⟨2, 1, "D", "d@x", 200, 230, 0, .completed⟩
      (by decide) (by decide)
    rw [h]
    decide

unseal slotStarts in
/-- C10 (implicit): slot generation loads only the scheduled meetings whose
`start_time` lies in the UTC window of the viewer-day — appending any
meeting outside that window (or of another event type or status) leaves the
output unchanged — and consequently, in the concrete configuration `C10db`,
an emitted slot overlaps a scheduled meeting of the same event type whose
start lies before the window. -/
theorem slots_meeting_window :
    (∀ (db : DB) (slug : String) (date viewerTz now : Int) (m : Meeting)
        (et : EventType),
      findEventTypeBySlug db slug = some et →
      (m.event_type_id ≠ et.id ∨ m.status ≠ .scheduled ∨
        m.start_time < dayWindowStart date viewerTz ∨
        dayWindowEnd date viewerTz ≤ m.start_time) →
      generateSlots { db with meetings := db.meetings ++ [m] } slug (some date)
          viewerTz now =
        generateSlots db slug (some date) viewerTz now)
    ∧ (generateSlots C10db "ev" (some 1) 0 0 =
        .ok [⟨1440, 1470, 0⟩, ⟨1470, 1500, 0⟩, ⟨1500, 1530, 0⟩, ⟨1530, 1560, 0⟩] ∧
      loadedBookings C10db 1 1 0 = [] ∧
      ∃ m ∈ C10db.meetings, m.event_type_id = 1 ∧ m.status = .scheduled ∧
        m.start_time < dayWindowStart 1 0 ∧
        m.start_time < 1470 ∧ 1440 < m.end_time) := by
  constructor
  · intro db slug date viewerTz now m et he hout
    have hfind : findEventTypeBySlug { db with meetings := db.meetings ++ [m] }
        slug = findEventTypeBySlug db slug := rfl
    have hpm : ¬(m.event_type_id = et.id ∧ m.status = MeetingStatus.scheduled ∧
        dayWindowStart date viewerTz ≤ m.start_time ∧
        m.start_time < dayWindowEnd date viewerTz) := by
      rintro ⟨h1, h2, h3, h4⟩
      rcases hout with h | h | h | h
      · exact h h1
      · exact h h2
      · omega
      · omega
    have hload : loadedBookings { db with meetings := db.meetings ++ [m] }
        et.id date viewerTz = loadedBookings db et.id date viewerTz := by
      unfold loadedBookings
      dsimp only
      rw [List.filter_append]
      simp [hpm]
    have hday : dayAvailabilityFor { db with meetings := db.meetings ++ [m] }
        et.id date = dayAvailabilityFor db et.id date := rfl
    have hov : overrideFor { db with meetings := db.meetings ++ [m] } et.id date =
        overrideFor db et.id date := rfl
    have hav : availabilityFor { db with meetings := db.meetings ++ [m] } et.id =
        availabilityFor db et.id := rfl
    have hall : allRangeSlots { db with meetings := db.meetings ++ [m] }
        et date viewerTz now = allRangeSlots db et date viewerTz now := by
      unfold allRangeSlots
      rw [hday, hov, hload]
    unfold generateSlots
    rw [hfind, he]
    dsimp only
    rw [hav, hday, hov, hall]
  · decide

unseal slotStarts in
/-- C10 witness: appending an out-of-window scheduled meeting (UTC start
3000, beyond the day window end 2880) leaves the slot answer unchanged. -/
theorem slots_meeting_window_witness :
    generateSlots { C10db with meetings := C10db.meetings ++
        [⟨5, 1, "Z", "z@x", 3000, 3030, 0, .scheduled⟩] } "ev" (some 1) 0 0 =
      generateSlots C10db "ev" (some 1) 0 0 := by
  exact slots_meeting_window.1 C10db "ev" 1 0 0
    ⟨5, 1, "Z", "z@x", 3000, 3030, 0, .scheduled⟩ ⟨1, "Ev", "ev", 30⟩
    (by decide) (by decide)

end Calendly
